import Mathlib

/-!
Shallow embedding of the `zerrors` structured-error library.

The Go library defines `Error[T ~string]`, an error node carrying a code of
some string-backed code type `T`, an optional wrapped cause (`error`), a tag
set, a data map and an optional stack snapshot.  A code type `T` is
represented here by its type name (a `String`), and a code value by its
underlying string.  A Go `error` interface value is either nil, a plain
message-only error produced by `fmt.Errorf`, or a `*zerrors.Error[T]` node.
-/

set_option autoImplicit false

/-- Values storable in a node's `data` map (Go `any`, restricted to the
payload kinds exercised by the repository's tests: ints and strings). -/
inductive Val where
  | int (n : Int)
  | str (s : String)
deriving DecidableEq

/-- A Go `error` interface value as used by the library: `nilErr` is the nil
interface, `plain` a message-only error produced by `fmt.Errorf`, and `node`
a `*zerrors.Error[T]` value whose code type `T` is identified by the name
`codeType` and whose code value is the underlying string `code`. -/
inductive GoErr where
  | nilErr : GoErr
  | plain (msg : String) : GoErr
  | node (codeType code : String) (tags : List String)
      (data : List (String × Val)) (stack : Option String) (wrapped : GoErr) : GoErr
deriving DecidableEq

namespace GoErr

/-- Adding elements to a `hashset.Set[string]` (`Set.Add`): set semantics,
elements already present are not duplicated.  The list keeps insertion
order; tag order is not significant in the library. -/
def tagsAdd (cur ts : List String) : List String :=
  ts.foldl (fun acc t => if acc.contains t then acc else acc ++ [t]) cur

/-- Go map write `e.data[k] = v`: last write wins, keys stay unique. -/
def dataPut (d : List (String × Val)) (k : String) (v : Val) : List (String × Val) :=
  if d.any (fun p => p.1 == k) then
    d.map (fun p => if p.1 == k then (k, v) else p)
  else
    d ++ [(k, v)]

/-- Go map read `val, ok := e.data[key]`. -/
def dataGet (d : List (String × Val)) (k : String) : Option Val :=
  (d.find? (fun p => p.1 == k)).map (fun p => p.2)

/-- `zerrors.New[T](code)`: fresh node with empty tags and data, no cause,
and whatever stack snapshot the external collaborator captured. -/
def New (codeType code : String) (st : Option String) : GoErr :=
  .node codeType code [] [] st .nilErr

/-- `(*Error[T]).Tags(tags...)`: unions the given tags into the node's set. -/
def Tags : GoErr → List String → GoErr
  | .node ct c tg d st w, ts => .node ct c (tagsAdd tg ts) d st w
  | e, _ => e

/-- `(*Error[T]).HasTags(tags...)`: true iff every given tag is present
(`hashset.Set.Contains`). -/
def HasTags : GoErr → List String → Bool
  | .node _ _ tg _ _ _, ts => ts.all (fun t => tg.contains t)
  | _, _ => false

/-- `(*Error[T]).GetTags()`: the node's tag values. -/
def GetTags : GoErr → List String
  | .node _ _ tg _ _ _ => tg
  | _ => []

/-- `(*Error[T]).With(k, v)`: stores or overwrites `data[k]`. -/
def With : GoErr → String → Val → GoErr
  | .node ct c tg d st w, k, v => .node ct c tg (dataPut d k v) st w
  | e, _, _ => e

/-- `(*Error[T]).Get(key)`: pure lookup in the node's own data map. -/
def Get : GoErr → String → Option Val
  | .node _ _ _ d _ _, k => dataGet d k
  | _, _ => none

/-- `(*Error[T]).WithError(err)`: sets `wrappedErr := err`; if the cause
exposes `GetTags() []string` (only `*Error[S]` nodes do), its tags are
unioned into this node's set at this moment. -/
def WithError : GoErr → GoErr → GoErr
  | .node ct c tg d st _, err =>
    match err with
    | .node ct' c' tg' d' st' w' =>
        .node ct c (tagsAdd tg tg') d st (.node ct' c' tg' d' st' w')
    | e => .node ct c tg d st e
  | e, _ => e

/-- `(*Error[T]).Errorf(format, a...)`: wraps a freshly formatted plain
error; `msg` stands for the formatted result. -/
def Errorf : GoErr → String → GoErr
  | .node ct c tg d st _, msg => .node ct c tg d st (.plain msg)
  | e, _ => e

/-- `(*Error[T]).Code()` as its underlying string. -/
def Code : GoErr → String
  | .node _ c _ _ _ _ => c
  | _ => ""

/-- The code type of a node, if the value is a node at all. -/
def codeType? : GoErr → Option String
  | .node ct _ _ _ _ _ => some ct
  | _ => none

/-- The code value of a node, if the value is a node at all. -/
def code? : GoErr → Option String
  | .node _ c _ _ _ _ => some c
  | _ => none

/-- `(*Error[T]).Error()`: `"<code>: <wrapped.Error()>"` when a cause is
set, the code alone otherwise; a plain error renders its message. -/
def ErrorMsg : GoErr → String
  | .node _ c _ _ _ .nilErr => c
  | .node _ c _ _ _ w => c ++ ": " ++ w.ErrorMsg
  | .plain m => m
  | .nilErr => ""

/-- `(*Error[T]).Unwrap()`: the direct cause (nil when none is set). -/
def Unwrap : GoErr → GoErr
  | .node _ _ _ _ _ w => w
  | _ => .nilErr

/-- `(*Error[T]).Is(target)`: the target must be a `*Error[T]` of the very
same code type, and its code value must equal this node's. -/
def Is : GoErr → GoErr → Bool
  | .node ct c _ _ _ _, .node ct' c' _ _ _ _ => ct == ct' && c == c'
  | _, _ => false

/-- `(*Error[T]).As(target)` for a target slot `**Error[tgt]`: assigns and
succeeds when this node's code type is `tgt`; otherwise recurses into the
wrapped error when that error itself implements `As` (only nodes do). -/
def AsMethod : GoErr → String → Option GoErr
  | .node ct c tg d st w, tgt =>
    if ct == tgt then some (.node ct c tg d st w)
    else
      match w with
      | .node ct' c' tg' d' st' w' => AsMethod (.node ct' c' tg' d' st' w') tgt
      | _ => none
  | _, _ => none

/-- The stdlib `errors.As(err, target)` loop for a target slot
`**Error[tgt]`: at each chain position, succeed on an exact type match,
else try the position's own `As` method, else follow `Unwrap()`. -/
def errorsAs : GoErr → String → Option GoErr
  | .node ct c tg d st w, tgt =>
    if ct == tgt then some (.node ct c tg d st w)
    else
      match AsMethod (.node ct c tg d st w) tgt with
      | some r => some r
      | none => errorsAs w tgt
  | _, _ => none

/-- The causal chain as a list, outermost first, following `Unwrap` until
nil (the finite acyclic chain the data model guarantees). -/
def chain : GoErr → List GoErr
  | .nilErr => []
  | .plain m => [.plain m]
  | .node ct c tg d st w => .node ct c tg d st w :: w.chain

/-- Whether this chain element is a node of code type `t`. -/
def typeIs : GoErr → String → Bool
  | .node ct _ _ _ _ _, t => ct == t
  | _, _ => false

/-- Whether this chain element is a node whose code value is `c`. -/
def codeIs : GoErr → String → Bool
  | .node _ c _ _ _ _, cv => c == cv
  | _, _ => false

/-- True when the wrapped error implements `slog.LogValuer` (only
`*Error[S]` nodes do). -/
def isLogValuer : GoErr → Bool
  | .node _ _ _ _ _ _ => true
  | _ => false

end GoErr

/-- An `slog.Value` as produced by the library's projection: strings, data
payloads, string lists (tags) and attribute groups. -/
inductive SlogValue where
  | str (s : String)
  | val (v : Val)
  | strList (l : List String)
  | group (attrs : List (String × SlogValue))

namespace GoErr

/-- `(*Error[T]).LogValue()` as its attribute list: always `code` and
`error`; `data` only when the data map is nonempty; `tags` only when the tag
set is nonempty; `wrapped` recursively when the cause is a `LogValuer`, as
its plain message otherwise, absent when there is no cause; `stack` only
when a snapshot exists. -/
def logAttrs : GoErr → List (String × SlogValue)
  | .nilErr => []
  | .plain _ => []
  | .node ct c tg d st w =>
    [("code", SlogValue.str c),
     ("error", SlogValue.str (ErrorMsg (.node ct c tg d st w)))]
    ++ (if d.isEmpty then []
        else [("data", SlogValue.group (d.map (fun p => (p.1, SlogValue.val p.2))))])
    ++ (if tg.isEmpty then [] else [("tags", SlogValue.strList tg)])
    ++ (match w with
        | .node _ _ _ _ _ _ => [("wrapped", SlogValue.group (logAttrs w))]
        | .plain m => [("wrapped", SlogValue.str (ErrorMsg (.plain m)))]
        | .nilErr => [])
    ++ (match st with
        | some s => [("stack", SlogValue.str s)]
        | none => [])

end GoErr

/-- Lookup of an attribute by key in an attribute list. -/
def attrLookup (l : List (String × SlogValue)) (k : String) : Option SlogValue :=
  (l.find? (fun p => p.1 == k)).map (fun p => p.2)

/-- `zerrors.As[T, V](err, fn)`: locate via `errors.As` the first chain node
of code type `tgt`, apply `fn` to it; not-found otherwise. -/
def AsCallback {V : Type} (e : GoErr) (tgt : String) (fn : GoErr → V) : Option V :=
  match GoErr.errorsAs e tgt with
  | some z => some (fn z)
  | none => none

/-- `zerrors.HasCode[T](err, code)`: locate via `errors.As` the first chain
node of code type `tgt` and compare its code value with `c`. -/
def HasCode (e : GoErr) (tgt c : String) : Bool :=
  match GoErr.errorsAs e tgt with
  | some z => z.Code == c
  | none => false

/-- Follows the spec's words: "walks the chain and returns true iff any node
of code type `C` has `code()` equal to the given value". -/
def specHasCodeAny (e : GoErr) (tgt c : String) : Bool :=
  e.chain.any (fun n => n.typeIs tgt && n.codeIs c)

/-- Follows the spec's words: "walks the chain starting at `err`, following
causal links, until it finds a node whose code type matches `C`". -/
def specFirstOfType (e : GoErr) (tgt : String) : Option GoErr :=
  e.chain.find? (fun n => n.typeIs tgt)

/-- The amended `hasCode` reading: true iff the first node of code type
`tgt` in the chain, when one exists, carries the code value `c`. -/
def specHasCodeFirst (e : GoErr) (tgt c : String) : Bool :=
  match specFirstOfType e tgt with
  | some n => n.codeIs c
  | none => false

/-!
Heap model.  `Tags`, `With`, `WithError` and `Errorf` mutate a node in
place in Go, and `WithError` stores a pointer to the (still mutable) cause.
To check aliasing behaviour — that tag propagation is a one-time copy and
not a live view — nodes live on an explicit heap addressed by `Nat`
references, and the builder methods become heap transformers.
-/

/-- A cause held by a node on the heap: an aliasing reference to another
heap object, or an immutable plain error message from `fmt.Errorf`. -/
inductive CauseRef where
  | ref (r : Nat)
  | plainMsg (s : String)
deriving DecidableEq

/-- Heap-resident `Error[T]` node: same fields as `GoErr.node`, with the
cause as a `CauseRef` (nil cause = `none`). -/
structure HNode where
  codeType : String
  code : String
  tags : List String
  data : List (String × Val)
  stack : Option String
  wrapped : Option CauseRef
deriving DecidableEq

/-- A heap object: an `Error[T]` node or a plain error. -/
inductive HVal where
  | node (n : HNode)
  | plainE (s : String)
deriving DecidableEq

/-- The heap: partial map from references to objects. -/
abbrev Heap := Nat → Option HVal

/-- Pointwise heap update. -/
def hUpdate (h : Heap) (r : Nat) (v : HVal) : Heap :=
  fun x => if x = r then some v else h x

/-- `GetTags()` read through a reference (empty when `r` is not a node). -/
def hGetTags (h : Heap) (r : Nat) : List String :=
  match h r with
  | some (.node n) => n.tags
  | _ => []

/-- `(*Error[T]).Tags(ts...)` on the heap: mutates the node at `r`. -/
def hTags (h : Heap) (r : Nat) (ts : List String) : Heap :=
  match h r with
  | some (.node n) => hUpdate h r (.node { n with tags := GoErr.tagsAdd n.tags ts })
  | _ => h

/-- The tag-listing capability query `err.(interface{ GetTags() []string })`
performed by `WithError`: only a node cause exposes its tags. -/
def causeTags? (h : Heap) (c : Option CauseRef) : Option (List String) :=
  match c with
  | some (.ref cr) =>
    match h cr with
    | some (.node n) => some n.tags
    | _ => none
  | _ => none

/-- `(*Error[T]).WithError(err)` on the heap: stores the cause reference in
the node at `r` and, when the cause exposes tags, unions the cause's tags
as they stand right now into the node's set. -/
def hWithError (h : Heap) (r : Nat) (c : Option CauseRef) : Heap :=
  match h r with
  | some (.node n) =>
    match causeTags? h c with
    | some ctags =>
        hUpdate h r (.node { n with wrapped := c, tags := GoErr.tagsAdd n.tags ctags })
    | none => hUpdate h r (.node { n with wrapped := c })
  | _ => h

/-- `(*Error[T]).Errorf(...)` on the heap: mutates the node's cause to a
fresh plain error. -/
def hErrorf (h : Heap) (r : Nat) (msg : String) : Heap :=
  match h r with
  | some (.node n) => hUpdate h r (.node { n with wrapped := some (.plainMsg msg) })
  | _ => h

/-- `(*Error[T]).With(k, v)` on the heap: mutates the node's data map. -/
def hWith (h : Heap) (r : Nat) (k : String) (v : Val) : Heap :=
  match h r with
  | some (.node n) => hUpdate h r (.node { n with data := GoErr.dataPut n.data k v })
  | _ => h

/-- Concrete heap for the tag-propagation scenario: the inner node (tagged
"permission") lives at reference 0, the outer node (tagged "iam" and
"authz") at reference 1, neither wrapping anything yet. -/
def tagHeap : Heap := fun x =>
  if x = 0 then some (.node ⟨"anotherErr", "unauthorized", ["permission"], [], none, none⟩)
  else if x = 1 then some (.node ⟨"domainErr", "not_found", ["iam", "authz"], [], none, none⟩)
  else none

/-- The tag-propagation heap after attaching the inner node as the outer
node's cause. -/
def tagHeapAttached : Heap := hWithError tagHeap 1 (some (.ref 0))

/-- Counterexample chain for `HasCode`: an outer node of code type `dupT`
with code value "a" wrapping an inner node of the same code type `dupT`
with code value "b". -/
def dupTypeChain : GoErr :=
  .node "dupT" "a" [] [] none (.node "dupT" "b" [] [] none .nilErr)

/-- Inner node of the data-locality scenario: owns the key "req_id". -/
def dataInner : GoErr :=
  .node "dbErr" "zero_rows" [] [("req_id", .int 10)] none .nilErr

/-- Outer node of the data-locality scenario: owns "user_id", wraps
`dataInner`; "req_id" lives only on the inner node. -/
def dataOuter : GoErr :=
  .node "domainErr" "not_found" [] [("user_id", .int 123)] none dataInner

/-- A chain with no node of code type "missingT": a `domainErr` node over a
plain terminal error. -/
def noMatchChain : GoErr :=
  .node "domainErr" "not_found" [] [] none (.plain "m")

/-!
Helper lemmas.
-/

namespace GoErr

theorem mem_tagsAdd_of_mem : ∀ (ts cur : List String) (a : String),
    a ∈ cur → a ∈ tagsAdd cur ts
  | [], cur, a, h => h
  | t :: ts, cur, a, h => by
    have h' : a ∈ (if cur.contains t then cur else cur ++ [t]) := by
      split <;> simp [h]
    have hrec := mem_tagsAdd_of_mem ts (if cur.contains t then cur else cur ++ [t]) a h'
    simpa [tagsAdd, List.foldl_cons] using hrec

theorem asMethod_eq_find : ∀ (e : GoErr) (t : String),
    e.AsMethod t = e.chain.find? (fun n => n.typeIs t)
  | .nilErr, _ => rfl
  | .plain m, t => by
    unfold AsMethod
    simp [chain, typeIs, List.find?]
  | .node ct c tg d st w, t => by
    unfold AsMethod
    by_cases hct : (ct == t) = true
    · simp [chain, typeIs, hct, List.find?]
    · simp only [chain]
      rw [List.find?_cons_of_neg _ (by simp [typeIs, hct])]
      simp only [hct, Bool.false_eq_true, if_false]
      cases w with
      | nilErr => rfl
      | plain m => simp [chain, typeIs, List.find?]
      | node ct' c' tg' d' st' w' =>
        exact asMethod_eq_find (GoErr.node ct' c' tg' d' st' w') t

theorem errorsAs_eq_find : ∀ (e : GoErr) (t : String),
    e.errorsAs t = e.chain.find? (fun n => n.typeIs t)
  | .nilErr, _ => rfl
  | .plain m, t => by
    unfold errorsAs
    simp [chain, typeIs, List.find?]
  | .node ct c tg d st w, t => by
    unfold errorsAs
    by_cases hct : (ct == t) = true
    · simp [chain, typeIs, hct, List.find?]
    · have hm := asMethod_eq_find (GoErr.node ct c tg d st w) t
      have hrec := errorsAs_eq_find w t
      simp only [chain] at hm ⊢
      rw [List.find?_cons_of_neg _ (by simp [typeIs, hct])] at hm ⊢
      simp only [hct, Bool.false_eq_true, if_false]
      rw [hm, hrec]
      cases w.chain.find? (fun n => n.typeIs t) <;> rfl

end GoErr

/-!
Claim theorems.
-/

/-- C1 counterexample: in the chain `dupTypeChain`, the outer node of code
type `dupT` carries code "a" and the inner node of the same code type
carries code "b"; a node of code type `dupT` with code "b" therefore exists
in the chain, yet `HasCode` reports false, because `errors.As` stops at the
first node of the requested code type. -/
theorem hasCode_counterexample_deeper_node :
    HasCode dupTypeChain "dupT" "b" = false
    ∧ specHasCodeAny dupTypeChain "dupT" "b" = true := by
  constructor <;> rfl

/-- C1 (amended): `HasCode err c` walks the chain with `errors.As` and
returns true iff the first node of code type `C` encountered, when one
exists, carries the code value `c`; deeper nodes of the same code type are
never examined. -/
theorem hasCode_eq_spec_first_of_type (e : GoErr) (tgt c : String) :
    HasCode e tgt c = specHasCodeFirst e tgt c := by
  unfold HasCode specHasCodeFirst specFirstOfType
  rw [GoErr.errorsAs_eq_find]
  cases hf : e.chain.find? (fun n => n.typeIs tgt) with
  | none => rfl
  | some n =>
    have hmem := List.find?_some hf
    cases n with
    | nilErr => simp [GoErr.typeIs] at hmem
    | plain m => simp [GoErr.typeIs] at hmem
    | node ct' c' tg' d' st' w' => rfl

/-- C2: `Error()` renders a node with a cause as the code, a colon and a
space, then the cause's own rendered message, and a node without a cause as
the code alone; hence a code-`a` node wrapping a code-`b` node wrapping a
plain message `m` renders `a ++ ": " ++ b ++ ": " ++ m`. -/
theorem error_message_recursive_render :
    (∀ ct c tg d st, (GoErr.node ct c tg d st .nilErr).ErrorMsg = c)
    ∧ (∀ ct c tg d st (w : GoErr), w ≠ .nilErr →
        (GoErr.node ct c tg d st w).ErrorMsg = c ++ ": " ++ w.ErrorMsg)
    ∧ (∀ tA a tgA dA stA tB b tgB dB stB m,
        (GoErr.node tA a tgA dA stA (GoErr.node tB b tgB dB stB (.plain m))).ErrorMsg
          = a ++ ": " ++ b ++ ": " ++ m) := by
  refine ⟨fun ct c tg d st => rfl, ?_,
    fun tA a tgA dA stA tB b tgB dB stB m => by
      show a ++ ": " ++ (b ++ ": " ++ m) = a ++ ": " ++ b ++ ": " ++ m
      simp [String.append_assoc]⟩
  intro ct c tg d st w hw
  cases w with
  | nilErr => exact absurd rfl hw
  | plain m => rfl
  | node ct' c' tg' d' st' w' => rfl

/-- C2 witness: instantiation of the cause-present rendering equation at a
concrete node wrapping a plain error. -/
theorem error_message_recursive_render_witness :
    (GoErr.node "domainErr" "A" [] [] none (.plain "m")).ErrorMsg
      = "A" ++ ": " ++ (GoErr.plain "m").ErrorMsg :=
  error_message_recursive_render.2.1 "domainErr" "A" [] [] none (.plain "m") (by decide)

/-- C3: the generic `As` helper applies the projection to the first chain
node whose code type matches the target and reports it as found; when no
node in the chain has the target code type, however deep the chain, it
reports not-found. -/
theorem as_callback_projects_first_match {V : Type} (e : GoErr) (tgt : String)
    (fn : GoErr → V) :
    AsCallback e tgt fn = (specFirstOfType e tgt).map fn
    ∧ ((∀ n ∈ e.chain, n.typeIs tgt = false) → AsCallback e tgt fn = none) := by
  have h1 : AsCallback e tgt fn = (specFirstOfType e tgt).map fn := by
    unfold AsCallback specFirstOfType
    rw [GoErr.errorsAs_eq_find]
    cases e.chain.find? (fun n => n.typeIs tgt) <;> rfl
  refine ⟨h1, fun hall => ?_⟩
  rw [h1]
  have hnone : e.chain.find? (fun n => n.typeIs tgt) = none := by
    rw [List.find?_eq_none]
    intro x hx
    simpa using hall x hx
  simp [specFirstOfType, hnone]

/-- C3 witness: on a chain holding a `domainErr` node over a plain error,
a lookup for the absent code type `missingT` is not-found. -/
theorem as_callback_projects_first_match_witness :
    AsCallback noMatchChain "missingT" GoErr.Code = none :=
  (as_callback_projects_first_match noMatchChain "missingT" GoErr.Code).2 (by decide)

/-- C5: `Is` succeeds exactly when the target is an `Error` node of the very
same code type whose code value equals this node's code value, whatever the
tags, data, stack or causal chains on either side; two nodes sharing the
textual code value under different code types are never identity-equal. -/
theorem is_requires_same_code_type_and_value :
    (∀ (ct c : String) (tg : List String) (d : List (String × Val))
        (st : Option String) (w t : GoErr),
      ((GoErr.node ct c tg d st w).Is t = true)
        ↔ (t.codeType? = some ct ∧ t.code? = some c))
    ∧ GoErr.Is (.node "codeA" "dup" [] [] none .nilErr)
        (.node "codeB" "dup" [] [] none .nilErr) = false := by
  constructor
  · intro ct c tg d st w t
    cases t with
    | nilErr => simp [GoErr.Is, GoErr.codeType?, GoErr.code?]
    | plain m => simp [GoErr.Is, GoErr.codeType?, GoErr.code?]
    | node ct' c' tg' d' st' w' =>
      simp only [GoErr.Is, GoErr.codeType?, GoErr.code?, Bool.and_eq_true, beq_iff_eq,
        Option.some.injEq]
      constructor
      · rintro ⟨h1, h2⟩
        exact ⟨h1.symm, h2.symm⟩
      · rintro ⟨h1, h2⟩
        exact ⟨h1.symm, h2.symm⟩
  · rfl

/-- C6: `Get` is a pure lookup in the node's own data map — whatever the
wrapped chain holds, a key absent from the node's own map is not-found; in
the concrete scenario the key "req_id" lives only on the inner node, so the
outer node reports not-found while the inner node finds it. -/
theorem get_is_local_lookup :
    (∀ (ct c : String) (tg : List String) (d : List (String × Val))
        (st : Option String) (w : GoErr) (k : String),
      GoErr.dataGet d k = none → (GoErr.node ct c tg d st w).Get k = none)
    ∧ dataOuter.Get "req_id" = none
    ∧ dataInner.Get "req_id" = some (.int 10) := by
  refine ⟨fun ct c tg d st w k h => h, by decide, by decide⟩

/-- C6 witness: the outer node of the data-locality scenario, which does not
own "req_id" itself, reports not-found although its wrapped inner node owns
that key. -/
theorem get_is_local_lookup_witness :
    (GoErr.node "domainErr" "not_found" [] [("user_id", Val.int 123)] none dataInner).Get
      "req_id" = none :=
  get_is_local_lookup.1 "domainErr" "not_found" [] [("user_id", Val.int 123)] none dataInner
    "req_id" (by decide)

/-- C9: `WithError` with a nil cause never fails: it overwrites any
previously set cause with nil, skips tag propagation, and afterwards
`Unwrap()` returns nil and `Error()` renders the code alone. -/
theorem withError_nil_clears_cause (ct c : String) (tg : List String)
    (d : List (String × Val)) (st : Option String) (w : GoErr) :
    ((GoErr.node ct c tg d st w).WithError .nilErr).Unwrap = .nilErr
    ∧ ((GoErr.node ct c tg d st w).WithError .nilErr).ErrorMsg = c
    ∧ ((GoErr.node ct c tg d st w).WithError .nilErr).GetTags = tg :=
  ⟨rfl, rfl, rfl⟩

/-- C10: `HasTags` with zero tag arguments returns true on every node,
including one whose tag set is empty. -/
theorem hasTags_empty_args_true (ct c : String) (tg : List String)
    (d : List (String × Val)) (st : Option String) (w : GoErr) :
    (GoErr.node ct c tg d st w).HasTags [] = true :=
  rfl

/-- Heap reads through a reference other than the updated one are
unchanged. -/
theorem hGetTags_hUpdate_ne (h : Heap) (r x : Nat) (v : HVal) (hx : x ≠ r) :
    hGetTags (hUpdate h r v) x = hGetTags h x := by
  simp [hGetTags, hUpdate, hx]

/-- C4: attaching a cause with `WithError` unions the cause's tags into the
wrapper once, as a snapshot: tags added to the cause after attachment never
change the wrapper's tag set; in the concrete scenario the outer node ends
up with exactly the tags "iam", "authz" and "permission". -/
theorem withError_tag_snapshot :
    (∀ (hp : Heap) (r c : Nat) (ts : List String), r ≠ c →
        hGetTags (hTags (hWithError hp r (some (.ref c))) c ts) r
          = hGetTags (hWithError hp r (some (.ref c))) r)
    ∧ (∀ t, t ∈ hGetTags tagHeapAttached 1
        ↔ (t = "iam" ∨ t = "authz" ∨ t = "permission")) := by
  constructor
  · intro hp r c ts hrc
    generalize hWithError hp r (some (.ref c)) = h2
    cases hc : h2 c with
    | none => simp [hTags, hc]
    | some v =>
      cases v with
      | plainE s => simp [hTags, hc]
      | node n => simp [hTags, hc, hGetTags_hUpdate_ne _ _ _ _ hrc]
  · have hcomp : hGetTags tagHeapAttached 1 = ["iam", "authz", "permission"] := by rfl
    intro t
    rw [hcomp]
    simp

/-- C4 witness: in the concrete two-node heap, with the inner node attached
as the outer node's cause, tagging the inner node afterwards leaves the
outer node's tag set unchanged. -/
theorem withError_tag_snapshot_witness :
    hGetTags (hTags (hWithError tagHeap 1 (some (.ref 0))) 0 ["late_tag"]) 1
      = hGetTags (hWithError tagHeap 1 (some (.ref 0))) 1 :=
  withError_tag_snapshot.1 tagHeap 1 0 ["late_tag"] (by decide)

/-- C8: the tag set of every heap node is monotonically non-decreasing
under every mutating builder operation — `Tags`, `WithError`, `Errorf` and
`With` each either add tags to a node's tag set or leave it unchanged, at
every reference; query operations read the heap without transforming it. -/
theorem tags_monotone (hp : Heap) (r x : Nat) (s : String) :
    (∀ ts, s ∈ hGetTags hp x → s ∈ hGetTags (hTags hp r ts) x)
    ∧ (∀ c, s ∈ hGetTags hp x → s ∈ hGetTags (hWithError hp r c) x)
    ∧ (∀ m, s ∈ hGetTags hp x → s ∈ hGetTags (hErrorf hp r m) x)
    ∧ (∀ k v, s ∈ hGetTags hp x → s ∈ hGetTags (hWith hp r k v) x) := by
  refine ⟨fun ts hs => ?_, fun c hs => ?_, fun m hs => ?_, fun k v hs => ?_⟩
  · by_cases hx : x = r
    · subst hx
      cases hr : hp x with
      | none => simpa [hTags, hr] using hs
      | some v =>
        cases v with
        | plainE s' => simpa [hTags, hr] using hs
        | node n =>
          simp only [hGetTags, hr] at hs
          simp [hTags, hr, hGetTags, hUpdate]
          exact GoErr.mem_tagsAdd_of_mem _ _ _ hs
    · cases hr : hp r with
      | none => simpa [hTags, hr] using hs
      | some v =>
        cases v with
        | plainE s' => simpa [hTags, hr] using hs
        | node n => simpa [hTags, hr, hGetTags_hUpdate_ne _ _ _ _ hx] using hs
  · by_cases hx : x = r
    · subst hx
      cases hr : hp x with
      | none => simpa [hWithError, hr] using hs
      | some v =>
        cases v with
        | plainE s' => simpa [hWithError, hr] using hs
        | node n =>
          simp only [hGetTags, hr] at hs
          cases hct : causeTags? hp c with
          | none => simp [hWithError, hr, hct, hGetTags, hUpdate, hs]
          | some ctags =>
            simp [hWithError, hr, hct, hGetTags, hUpdate]
            exact GoErr.mem_tagsAdd_of_mem _ _ _ hs
    · cases hr : hp r with
      | none => simpa [hWithError, hr] using hs
      | some v =>
        cases v with
        | plainE s' => simpa [hWithError, hr] using hs
        | node n =>
          cases hct : causeTags? hp c with
          | none => simpa [hWithError, hr, hct, hGetTags_hUpdate_ne _ _ _ _ hx] using hs
          | some ctags =>
            simpa [hWithError, hr, hct, hGetTags_hUpdate_ne _ _ _ _ hx] using hs
  · by_cases hx : x = r
    · subst hx
      cases hr : hp x with
      | none => simpa [hErrorf, hr] using hs
      | some v =>
        cases v with
        | plainE s' => simpa [hErrorf, hr] using hs
        | node n =>
          simp only [hGetTags, hr] at hs
          simp [hErrorf, hr, hGetTags, hUpdate, hs]
    · cases hr : hp r with
      | none => simpa [hErrorf, hr] using hs
      | some v =>
        cases v with
        | plainE s' => simpa [hErrorf, hr] using hs
        | node n => simpa [hErrorf, hr, hGetTags_hUpdate_ne _ _ _ _ hx] using hs
  · by_cases hx : x = r
    · subst hx
      cases hr : hp x with
      | none => simpa [hWith, hr] using hs
      | some v =>
        cases v with
        | plainE s' => simpa [hWith, hr] using hs
        | node n =>
          simp only [hGetTags, hr] at hs
          simp [hWith, hr, hGetTags, hUpdate, hs]
    · cases hr : hp r with
      | none => simpa [hWith, hr] using hs
      | some v =>
        cases v with
        | plainE s' => simpa [hWith, hr] using hs
        | node n => simpa [hWith, hr, hGetTags_hUpdate_ne _ _ _ _ hx] using hs

/-- C8 witness: the tag "permission" on the inner node of the concrete heap
survives each mutating builder operation applied to that node. -/
theorem tags_monotone_witness :
    "permission" ∈ hGetTags (hTags tagHeap 0 ["extra"]) 0
    ∧ "permission" ∈ hGetTags (hWithError tagHeap 0 (some (.plainMsg "m"))) 0
    ∧ "permission" ∈ hGetTags (hErrorf tagHeap 0 "m") 0
    ∧ "permission" ∈ hGetTags (hWith tagHeap 0 "k" (Val.int 1)) 0 :=
  ⟨(tags_monotone tagHeap 0 0 "permission").1 ["extra"] (by decide),
   (tags_monotone tagHeap 0 0 "permission").2.1 (some (.plainMsg "m")) (by decide),
   (tags_monotone tagHeap 0 0 "permission").2.2.1 "m" (by decide),
   (tags_monotone tagHeap 0 0 "permission").2.2.2 "k" (Val.int 1) (by decide)⟩

/-- Attribute lookup distributes over list append, preferring the left
list. -/
theorem attrLookup_append (l1 l2 : List (String × SlogValue)) (k : String) :
    attrLookup (l1 ++ l2) k = (attrLookup l1 k).or (attrLookup l2 k) := by
  unfold attrLookup
  rw [List.find?_append]
  cases l1.find? (fun p => p.1 == k) <;> simp

/-- C7: the structured projection of a node always carries `code` (the code
as text) and `error` (the full rendered chain message); it has a `data`
group exactly when the node's own data map is nonempty, a `tags` field
exactly when the tag set is nonempty, and a `stack` field exactly when a
snapshot was captured; `wrapped` is absent without a cause, is the cause's
own recursive projection when the cause supports projection, and is the
cause's plain message text otherwise. -/
theorem logAttrs_fields (ct c : String) (tg : List String) (d : List (String × Val))
    (st : Option String) (w : GoErr) :
    attrLookup ((GoErr.node ct c tg d st w).logAttrs) "code" = some (.str c)
    ∧ attrLookup ((GoErr.node ct c tg d st w).logAttrs) "error"
        = some (.str (GoErr.node ct c tg d st w).ErrorMsg)
    ∧ (attrLookup ((GoErr.node ct c tg d st w).logAttrs) "data").isSome = !d.isEmpty
    ∧ (attrLookup ((GoErr.node ct c tg d st w).logAttrs) "tags").isSome = !tg.isEmpty
    ∧ (attrLookup ((GoErr.node ct c tg d st w).logAttrs) "stack").isSome = st.isSome
    ∧ (w = .nilErr → attrLookup ((GoErr.node ct c tg d st w).logAttrs) "wrapped" = none)
    ∧ (w.isLogValuer = true →
        attrLookup ((GoErr.node ct c tg d st w).logAttrs) "wrapped"
          = some (.group w.logAttrs))
    ∧ (∀ m, w = .plain m →
        attrLookup ((GoErr.node ct c tg d st w).logAttrs) "wrapped" = some (.str m)) := by
  cases w <;> cases st <;> cases d <;> cases tg <;>
    simp [GoErr.logAttrs, attrLookup_append, attrLookup, List.find?, GoErr.ErrorMsg,
      GoErr.isLogValuer]

/-- C7 witness: instantiation at a node with data, a tag, a stack snapshot
and a plain cause. -/
theorem logAttrs_fields_witness :
    attrLookup ((GoErr.node "domainErr" "not_found" ["iam"] [("user_id", Val.int 123)]
        (some "stacktrace") (.plain "m")).logAttrs) "wrapped" = some (.str "m") :=
  (logAttrs_fields "domainErr" "not_found" ["iam"] [("user_id", Val.int 123)]
    (some "stacktrace") (.plain "m")).2.2.2.2.2.2.2 "m" rfl
